import Mathlib

/-!
Shallow embedding of the `kos-sim` simulation stepping and coordination engine
(`kos_sim/simulator.py` and `kos_sim/server.py`).

Modelling conventions:
* Python `float` values are modelled as exact rationals (`ℚ`); the spec's
  exactness statements (`sim_time == steps * dt`) are settled in this
  idealized-arithmetic model.
* MuJoCo arrays (`qpos`, `qvel`, `qacc`, `ctrl`, and per-actuator model
  parameter columns) are modelled as total functions `Nat → ℚ`; numpy slice
  assignment becomes a pointwise `if`-guard on the index range.
* Python `dict`s are modelled as insertion-ordered association lists with
  unique keys; assignment to an existing key replaces the value in place,
  assignment to a fresh key appends (Python ≥ 3.7 dict semantics).
* The external physics primitive `mujoco.mj_step` is an uninterpreted
  parameter `phys : MjData → MjData`; `mujoco.mj_forward` only recomputes
  derived quantities and is modelled as the identity on the fields we track.
* `np.random.uniform(min, max)` sampling inside `command_actuators` is
  modelled by an oracle `rand : Nat → ℚ` consumed once per command actually
  enqueued, in iteration order.
* Python exceptions (`ValueError`, `KeyError`) are modelled with
  `Except String`.
-/

namespace KosSim

/-- Lookup in a Python-dict modelled as an association list: first entry with
the given key (keys are unique, so "first" is "the" entry). -/
def dictGet {α β : Type} [DecidableEq α] (l : List (α × β)) (k : α) : Option β :=
  (l.find? (fun p => decide (p.1 = k))).map (fun p => p.2)

/-- Python dict assignment `d[k] = v`: replace in place if the key is present
(insertion order preserved), otherwise append at the end. -/
def dictInsert {α β : Type} [DecidableEq α] (l : List (α × β)) (k : α) (v : β) :
    List (α × β) :=
  if (dictGet l k).isSome then
    l.map (fun p => if p.1 = k then (k, v) else p)
  else
    l ++ [(k, v)]

/-- Python dict inversion `{v: k for k, v in d.items()}`: fold the pairs in
order, later duplicate values overwriting earlier ones. -/
def invertDict (l : List (String × Nat)) : List (Nat × String) :=
  l.foldl (fun acc p => dictInsert acc p.2 p.1) []

/-- Dict comprehension `{names[i]: i for i in range(len(names))}` used for the
sensor and actuator name-to-id caches. -/
def nameIndexDict (names : List String) : List (String × Nat) :=
  names.enum.foldl (fun acc p => dictInsert acc p.2 p.1) []

/-- One entry of `RobotURDFMetadataOutput.joint_name_to_metadata`; only the
`id` field is read by the simulator. -/
structure JointMetadataEntry where
  id : Option Nat

/-- The slice of `RobotURDFMetadataOutput` read by `MujocoSimulator.__init__`. -/
structure RobotURDFMetadataOutput where
  control_frequency : Option ℚ
  joint_name_to_metadata : Option (List (String × JointMetadataEntry))

/-- The slice of `mujoco.MjModel` read or mutated by the simulator.  Joint
`i` is a free joint iff `jnt_types.get i = some true`; `keyframe_qpos` is
`model.keyframe("default").qpos`; `qpos0` is the default configuration a fresh
`MjData` starts from; the four `actuator_*` columns are the per-actuator model
parameters mutated by `configure_actuator`. -/
structure MjModel where
  jnt_types : List Bool
  keyframe_qpos : Nat → ℚ
  qpos0 : Nat → ℚ
  actuator_names : List String
  sensor_names : List String
  actuator_gainprm0 : Nat → ℚ
  actuator_biasprm2 : Nat → ℚ
  actuator_forcerange_lo : Nat → ℚ
  actuator_forcerange_hi : Nat → ℚ
  gravity_z : ℚ
  timestep : ℚ

/-- The slice of `mujoco.MjData` the simulator reads or writes. -/
structure MjData where
  qpos : Nat → ℚ
  qvel : Nat → ℚ
  qacc : Nat → ℚ
  ctrl : Nat → ℚ

/-- A fresh `mujoco.MjData(model)`: `qpos` starts at the model's default
configuration, everything else at zero. -/
def freshData (m : MjModel) : MjData :=
  { qpos := m.qpos0
    qvel := fun _ => 0
    qacc := fun _ => 0
    ctrl := fun _ => 0 }

/-- `for i in range(model.njnt): if model.jnt_type[i] == mjJNT_FREE: ... break`
— index of the first free joint, if any. -/
def findFreeJointAux : List Bool → Nat → Option Nat
  | [], _ => none
  | b :: rest, i => if b then some i else findFreeJointAux rest (i + 1)

def findFreeJoint (m : MjModel) : Option Nat :=
  findFreeJointAux m.jnt_types 0

/-- `ConfigureActuatorRequest` (a `TypedDict` with all keys optional; an
absent key is `none`). -/
structure ConfigureActuatorRequest where
  torque_enabled : Option Bool := none
  zero_position : Option ℚ := none
  kp : Option ℚ := none
  kd : Option ℚ := none
  max_torque : Option ℚ := none

/-- State of a `MujocoSimulator` instance after `__init__` (constructor
parameters, caches built at initialization, and the mutable simulation
state `_sim_time` / `_current_commands` / `_data` / `_model`). -/
structure MujocoSimulator where
  dt : ℚ
  gravity : Bool
  render_enabled : Bool
  suspended : Bool
  command_delay_min : ℚ
  command_delay_max : ℚ
  control_frequency : ℚ
  sim_decimation : ℤ
  joint_name_to_id : List (String × Nat)
  joint_id_to_name : List (Nat × String)
  model : MjModel
  data : MjData
  initial_pos : Option (Nat → ℚ)
  initial_quat : Option (Nat → ℚ)
  sensor_name_to_id : List (String × Nat)
  actuator_name_to_id : List (String × Nat)
  joint_id_to_actuator_id : List (Nat × Nat)
  sim_time : ℚ
  current_commands : List (String × ℚ × ℚ)

namespace MujocoSimulator

/-- `MujocoSimulator.__init__`.

The control-frequency block at `simulator.py:53-60` is a botched merge and is
not syntactically valid Python (lines 54 and 58 are mis-indented); its only
coherent parse is the defaulting variant — `if control_frequency is None:
control_frequency = 50.0` — with the `raise ValueError("Control frequency is
not set")` on line 58 left as unreachable residue.  We embed that coherent
parse here.

`model` and `physInit` stand for the external engine: `physInit` models the
single `mj_step` + `mj_forward` performed at the end of initialization. -/
def init (meta : RobotURDFMetadataOutput) (model : MjModel)
    (physInit : MjData → MjData) (dt : ℚ) (gravity render suspended : Bool)
    (command_delay_min command_delay_max : ℚ) :
    Except String MujocoSimulator := do
  -- Gets the sim decimation (de-garbled block, see docstring above).
  let control_frequency : ℚ :=
    match meta.control_frequency with
    | none => 50
    | some cf => cf
  -- `int(1 / cf / dt)` truncates toward zero; for the positive values that
  -- occur this is the floor.
  let sim_decimation : ℤ := ⌊1 / control_frequency / dt⌋
  -- Gets the joint name mapping.
  let jmeta ← match meta.joint_name_to_metadata with
    | none => .error ("Joint name to metadata is not set")
    | some j => .ok j
  let joint_name_to_id ← jmeta.mapM (fun p =>
    match p.2.id with
    | none => .error ("Value is not set")
    | some i => .ok (p.1, i))
  let joint_id_to_name := invertDict joint_name_to_id
  if joint_name_to_id.length ≠ joint_id_to_name.length then
    throw ("Joint IDs are not unique!")
  -- Load model, set `model.opt.timestep = dt`, create fresh data.
  let m : MjModel := { model with timestep := dt }
  let m : MjModel := if gravity then m else { m with gravity_z := 0 }
  let d0 : MjData := freshData m
  -- If suspended, store initial position and orientation of the first free
  -- joint (read from `data.qpos` before the initial `mj_step`).
  let cached : Option (Nat → ℚ) × Option (Nat → ℚ) :=
    if suspended then
      match findFreeJoint m with
      | some i => (some (fun k => d0.qpos (i + k)), some (fun k => d0.qpos (i + 3 + k)))
      | none => (none, none)
    else (none, none)
  -- Velocities and accelerations are already zero in `freshData`; step the
  -- simulation once to initialize internal structures (`mj_step` then
  -- `mj_forward`).
  let d1 := physInit d0
  -- Cache lookups after initialization.
  let sensor_name_to_id := nameIndexDict m.sensor_names
  let actuator_name_to_id := nameIndexDict m.actuator_names
  -- `{joint_id: actuator_name_to_id[f"{name}_ctrl"] ...}`: a missing
  -- actuator raises `KeyError` and initialization fails.
  let joint_id_to_actuator_id ← joint_id_to_name.mapM (fun p =>
    match dictGet actuator_name_to_id (p.2 ++ "_ctrl") with
    | none => .error ("KeyError: " ++ p.2 ++ "_ctrl")
    | some aid => .ok (p.1, aid))
  .ok
    { dt := dt
      gravity := gravity
      render_enabled := render
      suspended := suspended
      command_delay_min := command_delay_min
      command_delay_max := command_delay_max
      control_frequency := control_frequency
      sim_decimation := sim_decimation
      joint_name_to_id := joint_name_to_id
      joint_id_to_name := joint_id_to_name
      model := m
      data := d1
      initial_pos := cached.1
      initial_quat := cached.2
      sensor_name_to_id := sensor_name_to_id
      actuator_name_to_id := actuator_name_to_id
      joint_id_to_actuator_id := joint_id_to_actuator_id
      sim_time := 0
      current_commands := [] }

end MujocoSimulator

/-- The first loop of `MujocoSimulator.step`: walk `_current_commands` in
insertion order and, for every entry whose `application_time <= sim_time`,
write its target into `data.ctrl` at the actuator's id (a name absent from
`_actuator_name_to_id` raises `KeyError`). -/
def applyDueCommands (acts : List (String × Nat)) (t : ℚ) :
    List (String × ℚ × ℚ) → (Nat → ℚ) → Except String (Nat → ℚ)
  | [], ctrl => .ok ctrl
  | (name, target_pos, application_time) :: rest, ctrl =>
    if application_time ≤ t then
      match dictGet acts name with
      | none => .error ("KeyError: " ++ name)
      | some actuator_id =>
        applyDueCommands acts t rest (Function.update ctrl actuator_id target_pos)
    else
      applyDueCommands acts t rest ctrl

/-- The suspension correction at the end of `MujocoSimulator.step`: find the
first free joint and overwrite `qpos[i:i+7]` with
`model.keyframe("default").qpos[i:i+7]` and `qvel[i:i+6]` with zeros. -/
def suspendFix (m : MjModel) (d : MjData) : MjData :=
  match findFreeJoint m with
  | none => d
  | some i =>
    { d with
      qpos := fun j => if i ≤ j ∧ j < i + 7 then m.keyframe_qpos j else d.qpos j
      qvel := fun j => if i ≤ j ∧ j < i + 6 then 0 else d.qvel j }

namespace MujocoSimulator

/-- `MujocoSimulator.step`: advance the clock by `dt`, apply and remove every
due pending command, run the physics primitive once, then apply the
suspension correction if the suspension flag is set.

Removing exactly the commands collected in `commands_to_remove` is the same
as filtering out the due entries, since the due test is re-evaluated on the
unchanged entries. -/
def step (phys : MjData → MjData) (s : MujocoSimulator) :
    Except String MujocoSimulator :=
  match applyDueCommands s.actuator_name_to_id (s.sim_time + s.dt)
      s.current_commands s.data.ctrl with
  | .error e => .error e
  | .ok ctrl' =>
    let cmds' := s.current_commands.filter
      (fun c => !(decide (c.2.2 ≤ s.sim_time + s.dt)))
    let d2 := phys { s.data with ctrl := ctrl' }
    let d3 := if s.suspended then suspendFix s.model d2 else d2
    .ok { s with sim_time := s.sim_time + s.dt, current_commands := cmds', data := d3 }

/-- `simulator.timestep` property: `model.opt.timestep`. -/
def timestep (s : MujocoSimulator) : ℚ :=
  s.model.timestep

end MujocoSimulator

/-- The loop body of `MujocoSimulator.command_actuators`: for each
`(joint_id, command)` pair in the batch, resolve the joint id to a name (an
unknown id is logged and skipped), resolve `f"{name}_ctrl"` to an actuator (a
missing actuator is logged and skipped), sample a delay from the oracle, and
overwrite the pending entry for that actuator.  `k` counts the delay samples
drawn so far. -/
def commandLoop (joint_id_to_name : List (Nat × String))
    (actuator_name_to_id : List (String × Nat)) (sim_time : ℚ)
    (rand : Nat → ℚ) :
    List (Nat × ℚ) → Nat → List (String × ℚ × ℚ) → List (String × ℚ × ℚ)
  | [], _, cur => cur
  | (joint_id, command) :: rest, k, cur =>
    match dictGet joint_id_to_name joint_id with
    | none => commandLoop joint_id_to_name actuator_name_to_id sim_time rand rest k cur
    | some joint_name =>
      if (dictGet actuator_name_to_id (joint_name ++ "_ctrl")).isSome then
        commandLoop joint_id_to_name actuator_name_to_id sim_time rand rest (k + 1)
          (dictInsert cur (joint_name ++ "_ctrl") (command, sim_time + rand k))
      else
        commandLoop joint_id_to_name actuator_name_to_id sim_time rand rest k cur

namespace MujocoSimulator

/-- `MujocoSimulator.command_actuators`: best-effort batch enqueue; never
raises. -/
def command_actuators (rand : Nat → ℚ) (commands : List (Nat × ℚ))
    (s : MujocoSimulator) : MujocoSimulator :=
  { s with
    current_commands :=
      commandLoop s.joint_id_to_name s.actuator_name_to_id s.sim_time rand
        commands 0 s.current_commands }

/-- `MujocoSimulator.configure_actuator`: an unknown joint id raises
`KeyError`; otherwise each field present in the request updates the
corresponding model parameter column at the actuator's id
(`torque_enabled` and `zero_position` are accepted but never read). -/
def configure_actuator (joint_id : Nat) (configuration : ConfigureActuatorRequest)
    (s : MujocoSimulator) : Except String MujocoSimulator :=
  match dictGet s.joint_id_to_actuator_id joint_id with
  | none => .error ("KeyError: Joint ID not found in config mappings")
  | some actuator_id =>
    let m := s.model
    let m := match configuration.kp with
      | some kp => { m with actuator_gainprm0 := Function.update m.actuator_gainprm0 actuator_id kp }
      | none => m
    let m := match configuration.kd with
      | some kd => { m with actuator_biasprm2 := Function.update m.actuator_biasprm2 actuator_id (-kd) }
      | none => m
    let m := match configuration.max_torque with
      | some mt =>
        { m with
          actuator_forcerange_lo := Function.update m.actuator_forcerange_lo actuator_id (-mt)
          actuator_forcerange_hi := Function.update m.actuator_forcerange_hi actuator_id mt }
      | none => m
    .ok { s with model := m }

/-- `MujocoSimulator.reset`: zero the clock, clear the pending commands,
reset the data to the model defaults (`mj_resetData`), optionally overwrite
the leading entries of `qpos`, re-zero `qvel`/`qacc`; `mj_forward` leaves the
tracked fields unchanged. -/
def reset (qpos : Option (List ℚ)) (s : MujocoSimulator) : MujocoSimulator :=
  let d := freshData s.model
  let d := match qpos with
    | some q => { d with qpos := fun j => if j < q.length then q.getD j 0 else d.qpos j }
    | none => d
  let d := { d with qvel := fun _ => 0, qacc := fun _ => 0 }
  { s with sim_time := 0, current_commands := [], data := d }

end MujocoSimulator

/-- Every pending command names an actuator present in
`_actuator_name_to_id`.  `command_actuators` only enqueues such names and
initialization fails if any joint's actuator is missing, so this invariant
holds throughout a run. -/
def CommandsWF (s : MujocoSimulator) : Prop :=
  ∀ c ∈ s.current_commands, (dictGet s.actuator_name_to_id c.1).isSome = true

instance (s : MujocoSimulator) : Decidable (CommandsWF s) :=
  List.decidableBAll _ s.current_commands

/-- The pure count of the catch-up `while sim_time > 0` loop of
`SimulationServer.simulation_loop`: one step per iteration, the owed time
decreasing by `dt` each time.  The `0 < dt` guard is not in the source (the
Python loop simply diverges for `dt ≤ 0`); it is required for termination and
every claim assumes a positive timestep. -/
def catchUpCount (dt : ℚ) (owed : ℚ) : Nat :=
  if h : 0 < dt ∧ 0 < owed then catchUpCount dt (owed - dt) + 1 else 0
termination_by (⌈owed / dt⌉).toNat
decreasing_by
  obtain ⟨hdt, howed⟩ := h
  have h1 : (0 : ℚ) < owed / dt := div_pos howed hdt
  have h2 : (0 : ℤ) < ⌈owed / dt⌉ := Int.ceil_pos.mpr h1
  have h3 : (owed - dt) / dt = owed / dt - 1 := by field_simp
  rw [h3, Int.ceil_sub_one]
  omega

/-- The catch-up `while` loop itself, acting on the simulator:
`while sim_time > 0: await self.simulator.step(); sim_time -= timestep;
steps += 1`.  `dt` is the value of `self.simulator.timestep`, which `step`
never modifies; as in `catchUpCount`, the `0 < dt` guard exists only for
termination. -/
def runCatchUp (phys : MjData → MjData) (dt : ℚ) (owed : ℚ)
    (s : MujocoSimulator) (steps : Nat) :
    Except String (MujocoSimulator × Nat) :=
  if h : 0 < dt ∧ 0 < owed then
    match MujocoSimulator.step phys s with
    | .error e => .error e
    | .ok s' => runCatchUp phys dt (owed - dt) s' (steps + 1)
  else .ok (s, steps)
termination_by (⌈owed / dt⌉).toNat
decreasing_by
  obtain ⟨hdt, howed⟩ := h
  have h1 : (0 : ℚ) < owed / dt := div_pos howed hdt
  have h2 : (0 : ℤ) < ⌈owed / dt⌉ := Int.ceil_pos.mpr h1
  have h3 : (owed - dt) / dt = owed / dt - 1 := by field_simp
  rw [h3, Int.ceil_sub_one]
  omega

/-- Result of one iteration of `SimulationServer.simulation_loop`'s body:
either the loop proceeds to its idle sleep and next iteration, or an
exception escaped the body, in which case the `except` clause logs it and the
`finally` clause runs `self.stop()` — the shutdown path. -/
inductive LoopOutcome where
  | next (s : MujocoSimulator) (stepsTaken : Nat)
  | shutdown (err : String)

def LoopOutcome.isNext : LoopOutcome → Bool
  | .next _ _ => true
  | .shutdown _ => false

/-- One iteration of the pacing loop (`server.py:84-105`).  `shouldStep` is
the value returned by `self.step_controller.should_step()` (the step
controller lives outside the embedded sources; the claims only condition on
its boolean answer).  `elapsed` is `current_time - last_update`.
`renderResult` is the outcome of the external `self._viewer.render()` call;
`simulator.render` only invokes it when rendering is enabled.  Any error from
stepping or rendering escapes the loop body and lands in the shutdown path. -/
def simulationLoopIter (phys : MjData → MjData) (shouldStep : Bool)
    (renderResult : Except String Unit) (elapsed : ℚ) (s : MujocoSimulator) :
    LoopOutcome :=
  let stepRes : Except String (MujocoSimulator × Nat) :=
    if shouldStep then runCatchUp phys s.timestep elapsed s 0 else .ok (s, 0)
  match stepRes with
  | .error e => .shutdown e
  | .ok (s', steps) =>
    match (if s'.render_enabled then renderResult else .ok ()) with
    | .error e => .shutdown e
    | .ok _ => .next s' steps

/-- The remote-facing operations that mutate simulator state, for reasoning
about arbitrary operation sequences. -/
inductive Op where
  | stepOp (phys : MjData → MjData)
  | commandOp (rand : Nat → ℚ) (cmds : List (Nat × ℚ))
  | configureOp (joint_id : Nat) (cfg : ConfigureActuatorRequest)
  | resetOp (qpos : Option (List ℚ))

def applyOp (s : MujocoSimulator) : Op → Except String MujocoSimulator
  | .stepOp phys => MujocoSimulator.step phys s
  | .commandOp rand cmds => .ok (MujocoSimulator.command_actuators rand cmds s)
  | .configureOp j cfg => MujocoSimulator.configure_actuator j cfg s
  | .resetOp q => .ok (MujocoSimulator.reset q s)

def runOps (s : MujocoSimulator) : List Op → Except String MujocoSimulator
  | [] => .ok s
  | op :: rest =>
    match applyOp s op with
    | .error e => .error e
    | .ok s' => runOps s' rest

/-- Whether an operation raised. -/
def isErr {α : Type} : Except String α → Bool
  | .error _ => true
  | .ok _ => false

/-! ### Helper lemmas -/

/-- The catch-up count `n` brackets the owed time: `owed ≤ n·dt < owed + dt`
(the loop runs until the owed time is paid off, overshooting by less than one
timestep). -/
theorem catchUpCount_bounds (dt : ℚ) (hdt : 0 < dt) (owed : ℚ) (howed : 0 < owed) :
    owed ≤ (catchUpCount dt owed : ℚ) * dt ∧
      (catchUpCount dt owed : ℚ) * dt < owed + dt := by
  have key : ∀ m : ℕ, ∀ w : ℚ, 0 < w → (⌈w / dt⌉).toNat ≤ m →
      w ≤ (catchUpCount dt w : ℚ) * dt ∧ (catchUpCount dt w : ℚ) * dt < w + dt := by
    intro m
    induction m with
    | zero =>
      intro w hw hle
      exfalso
      have h1 : (0 : ℚ) < w / dt := div_pos hw hdt
      have h2 : (0 : ℤ) < ⌈w / dt⌉ := Int.ceil_pos.mpr h1
      omega
    | succ m ih =>
      intro w hw hle
      rw [catchUpCount, dif_pos ⟨hdt, hw⟩]
      by_cases hw' : 0 < w - dt
      · have h3 : (w - dt) / dt = w / dt - 1 := by field_simp
        have hle' : (⌈(w - dt) / dt⌉).toNat ≤ m := by
          rw [h3, Int.ceil_sub_one]
          have h1 : (0 : ℚ) < w / dt := div_pos hw hdt
          have h2 : (0 : ℤ) < ⌈w / dt⌉ := Int.ceil_pos.mpr h1
          omega
        obtain ⟨ha, hb⟩ := ih (w - dt) hw' hle'
        push_cast
        constructor
        · nlinarith
        · nlinarith
      · have hz : catchUpCount dt (w - dt) = 0 := by
          rw [catchUpCount, dif_neg]
          intro hcon
          exact hw' hcon.2
        rw [hz]
        push_cast
        have := not_lt.mp hw'
        constructor
        · linarith
        · linarith
  exact key (⌈owed / dt⌉).toNat owed howed le_rfl

/-- The catch-up count is `⌊owed / dt⌋` within one step. -/
theorem catchUpCount_floor (dt : ℚ) (hdt : 0 < dt) (owed : ℚ) (howed : 0 < owed) :
    ⌊owed / dt⌋ ≤ (catchUpCount dt owed : ℤ) ∧
      (catchUpCount dt owed : ℤ) ≤ ⌊owed / dt⌋ + 1 := by
  obtain ⟨ha, hb⟩ := catchUpCount_bounds dt hdt owed howed
  constructor
  · have h1 : owed / dt ≤ ((catchUpCount dt owed : ℕ) : ℚ) := by
      rw [div_le_iff₀ hdt]
      linarith
    have h2 := Int.floor_mono h1
    rwa [Int.floor_natCast] at h2
  · have h2 : ((catchUpCount dt owed : ℕ) : ℚ) - 1 < owed / dt := by
      rw [lt_div_iff₀ hdt]
      nlinarith
    have h3 : ((catchUpCount dt owed : ℕ) : ℤ) - 1 ≤ ⌊owed / dt⌋ := by
      rw [Int.le_floor]
      push_cast
      linarith
    omega

/-- If every pending command names a known actuator, the command-application
loop of `step` cannot raise. -/
theorem applyDueCommands_ok (acts : List (String × Nat)) (t : ℚ) :
    ∀ (cmds : List (String × ℚ × ℚ)) (ctrl : Nat → ℚ),
      (∀ c ∈ cmds, (dictGet acts c.1).isSome = true) →
      ∃ ctrl', applyDueCommands acts t cmds ctrl = .ok ctrl' := by
  intro cmds
  induction cmds with
  | nil => exact fun ctrl _ => ⟨ctrl, rfl⟩
  | cons c rest ih =>
    intro ctrl h
    obtain ⟨name, target, appTime⟩ := c
    by_cases hd : appTime ≤ t
    · have hs : (dictGet acts name).isSome = true := h _ (List.mem_cons_self _ _)
      obtain ⟨aid, haid⟩ := Option.isSome_iff_exists.mp hs
      obtain ⟨ctrl', hc⟩ :=
        ih (Function.update ctrl aid target) (fun c hc => h c (List.mem_cons_of_mem _ hc))
      refine ⟨ctrl', ?_⟩
      rw [applyDueCommands, if_pos hd, haid]
      exact hc
    · obtain ⟨ctrl', hc⟩ := ih ctrl (fun c hc => h c (List.mem_cons_of_mem _ hc))
      refine ⟨ctrl', ?_⟩
      rw [applyDueCommands, if_neg hd]
      exact hc

/-- The suspension correction never touches the control vector. -/
theorem suspendFix_ctrl (m : MjModel) (d : MjData) : (suspendFix m d).ctrl = d.ctrl := by
  unfold suspendFix
  cases findFreeJoint m <;> rfl

/-- A well-formed simulator steps successfully; the step advances the clock
by exactly `dt`, leaves the model and caches alone, and preserves
well-formedness (commands are only removed). -/
theorem step_ok (phys : MjData → MjData) (s : MujocoSimulator) (h : CommandsWF s) :
    ∃ s', MujocoSimulator.step phys s = .ok s' ∧
      s'.sim_time = s.sim_time + s.dt ∧
      s'.dt = s.dt ∧ s'.model = s.model ∧
      s'.actuator_name_to_id = s.actuator_name_to_id ∧
      s'.render_enabled = s.render_enabled ∧
      CommandsWF s' := by
  obtain ⟨ctrl', hc⟩ := applyDueCommands_ok s.actuator_name_to_id (s.sim_time + s.dt)
    s.current_commands s.data.ctrl h
  have hstep : MujocoSimulator.step phys s = .ok
      { s with
        sim_time := s.sim_time + s.dt
        current_commands := s.current_commands.filter
          (fun c => !(decide (c.2.2 ≤ s.sim_time + s.dt)))
        data := if s.suspended then suspendFix s.model (phys { s.data with ctrl := ctrl' })
          else phys { s.data with ctrl := ctrl' } } := by
    unfold MujocoSimulator.step
    rw [hc]
  refine ⟨_, hstep, rfl, rfl, rfl, rfl, rfl, ?_⟩
  intro c hcmem
  exact h c (List.mem_filter.mp hcmem).1

/-- Any successful step advances the clock by exactly `dt` (no
well-formedness needed: we invert the result instead of building it). -/
theorem step_sim_time (phys : MjData → MjData) (s s' : MujocoSimulator)
    (h : MujocoSimulator.step phys s = .ok s') :
    s'.sim_time = s.sim_time + s.dt := by
  unfold MujocoSimulator.step at h
  cases hc : applyDueCommands s.actuator_name_to_id (s.sim_time + s.dt)
      s.current_commands s.data.ctrl with
  | error e => rw [hc] at h; cases h
  | ok ctrl' =>
    rw [hc] at h
    cases h
    rfl

/-- The catch-up loop on a well-formed simulator: it succeeds, runs exactly
`catchUpCount dt owed` steps, and advances the clock by that many `dt`. -/
theorem runCatchUp_spec (phys : MjData → MjData) (dt : ℚ) (hdt : 0 < dt) :
    ∀ (n : ℕ) (owed : ℚ) (s : MujocoSimulator) (k : ℕ),
      catchUpCount dt owed = n → s.dt = dt → CommandsWF s →
      ∃ s', runCatchUp phys dt owed s k = .ok (s', k + n) ∧
        s'.sim_time = s.sim_time + (n : ℚ) * dt ∧
        s'.dt = dt ∧ s'.render_enabled = s.render_enabled ∧
        CommandsWF s' := by
  intro n
  induction n with
  | zero =>
    intro owed s k hcount hsdt hwf
    have how : ¬ 0 < owed := by
      intro how
      rw [catchUpCount, dif_pos ⟨hdt, how⟩] at hcount
      omega
    refine ⟨s, ?_, by push_cast; ring, hsdt, rfl, hwf⟩
    rw [runCatchUp, dif_neg (fun hcon => how hcon.2), Nat.add_zero]
  | succ n ih =>
    intro owed s k hcount hsdt hwf
    have how : 0 < owed := by
      by_contra how
      rw [catchUpCount, dif_neg (fun hcon => how hcon.2)] at hcount
      omega
    obtain ⟨s1, hstep, ht, hdt1, _, _, hr, hwf1⟩ := step_ok phys s hwf
    have hcount' : catchUpCount dt (owed - dt) = n := by
      rw [catchUpCount, dif_pos ⟨hdt, how⟩] at hcount
      omega
    obtain ⟨s', hrun, ht', hdt', hr', hwf'⟩ :=
      ih (owed - dt) s1 (k + 1) hcount' (hdt1.trans hsdt) hwf1
    have hkn : k + 1 + n = k + (n + 1) := by omega
    rw [hkn] at hrun
    refine ⟨s', ?_, ?_, hdt', hr'.trans hr, hwf'⟩
    · rw [runCatchUp, dif_pos ⟨hdt, how⟩, hstep]
      exact hrun
    · rw [ht', ht, hsdt]
      push_cast
      ring

/-! ### Concrete fixtures for counterexamples and witnesses -/

/-- Valid metadata: one joint `j1` with external id 11. -/
def cexMeta : RobotURDFMetadataOutput :=
  { control_frequency := some 50
    joint_name_to_metadata := some [("j1", ⟨some 11⟩)] }

/-- Metadata whose control frequency is missing (`None`). -/
def cexMetaNoCF : RobotURDFMetadataOutput :=
  { control_frequency := none
    joint_name_to_metadata := some [("j1", ⟨some 11⟩)] }

/-- A model with one free joint whose `"default"` keyframe pose (all ones)
differs from the default configuration `qpos0` (all zeros) that a fresh
`MjData` — and hence the cached initial reference — starts from. -/
def cexModel : MjModel :=
  { jnt_types := [true]
    keyframe_qpos := fun _ => 1
    qpos0 := fun _ => 0
    actuator_names := ["j1_ctrl"]
    sensor_names := []
    actuator_gainprm0 := fun _ => 0
    actuator_biasprm2 := fun _ => 0
    actuator_forcerange_lo := fun _ => 0
    actuator_forcerange_hi := fun _ => 0
    gravity_z := -981/100
    timestep := 1/1000 }

/-- A minimal model for witnesses: one actuator, timestep 1. -/
def witnessModel : MjModel :=
  { jnt_types := []
    keyframe_qpos := fun _ => 0
    qpos0 := fun _ => 0
    actuator_names := ["j1_ctrl"]
    sensor_names := []
    actuator_gainprm0 := fun _ => 0
    actuator_biasprm2 := fun _ => 0
    actuator_forcerange_lo := fun _ => 0
    actuator_forcerange_hi := fun _ => 0
    gravity_z := -981/100
    timestep := 1 }

/-- A concrete well-formed simulator state (joint 11 ↦ `"j1"` ↦ actuator 0,
clock at zero, no pending commands). -/
def witnessSim : MujocoSimulator :=
  { dt := 1
    gravity := true
    render_enabled := true
    suspended := false
    command_delay_min := 0
    command_delay_max := 0
    control_frequency := 50
    sim_decimation := 20
    joint_name_to_id := [("j1", 11)]
    joint_id_to_name := [(11, "j1")]
    model := witnessModel
    data := freshData witnessModel
    initial_pos := none
    initial_quat := none
    sensor_name_to_id := []
    actuator_name_to_id := [("j1_ctrl", 0)]
    joint_id_to_actuator_id := [(11, 0)]
    sim_time := 0
    current_commands := [] }

/-- `witnessSim` running suspended over the free-joint model. -/
def witnessSimSusp : MujocoSimulator :=
  { witnessSim with
    suspended := true
    model := { cexModel with timestep := 1 }
    data := freshData { cexModel with timestep := 1 }
    initial_pos := some (fun _ => 0)
    initial_quat := some (fun _ => 0) }

/-- The state `witnessSimSusp` reaches after one step. -/
def witnessSimSuspStepped : MujocoSimulator :=
  match MujocoSimulator.step id witnessSimSusp with
  | .ok s' => s'
  | .error _ => witnessSimSusp

/-! ### Claim theorems -/

/-- C1: in a pacing-loop iteration where `should_step()` returns true, the
number `n` of `simulator.step` invocations is `⌊Δ/dt⌋` within one step of
scheduling jitter (the `while sim_time > 0` loop actually runs `⌈Δ/dt⌉`
times), and the simulation clock afterwards equals `n * dt` exactly. -/
theorem C1_pacing_catchup (phys : MjData → MjData) (elapsed : ℚ)
    (s : MujocoSimulator) (hdt : 0 < s.timestep) (helapsed : 0 < elapsed)
    (hdteq : s.dt = s.timestep) (hwf : CommandsWF s) (h0 : s.sim_time = 0) :
    ∃ s' n, simulationLoopIter phys true (.ok ()) elapsed s = .next s' n ∧
      ⌊elapsed / s.timestep⌋ ≤ (n : ℤ) ∧ (n : ℤ) ≤ ⌊elapsed / s.timestep⌋ + 1 ∧
      s'.sim_time = (n : ℚ) * s.timestep := by
  obtain ⟨s', hrun, ht, _, _, _⟩ :=
    runCatchUp_spec phys s.timestep hdt (catchUpCount s.timestep elapsed)
      elapsed s 0 rfl hdteq hwf
  rw [Nat.zero_add] at hrun
  obtain ⟨hf1, hf2⟩ := catchUpCount_floor s.timestep hdt elapsed helapsed
  refine ⟨s', catchUpCount s.timestep elapsed, ?_, hf1, hf2, ?_⟩
  · unfold simulationLoopIter
    rw [if_pos rfl, hrun]
    simp only [ite_self]
  · rw [ht, h0, zero_add]

/-- C1 witness: a concrete iteration with `dt = 1` and `Δ = 3/2`. -/
theorem C1_pacing_catchup_witness :
    (0 : ℚ) < witnessSim.timestep ∧ (0 : ℚ) < (3 / 2 : ℚ) ∧
    witnessSim.dt = witnessSim.timestep ∧ CommandsWF witnessSim ∧
    witnessSim.sim_time = 0 ∧
    (∃ s' n, simulationLoopIter id true (.ok ()) (3 / 2) witnessSim = .next s' n ∧
      ⌊(3 / 2 : ℚ) / witnessSim.timestep⌋ ≤ (n : ℤ) ∧
      (n : ℤ) ≤ ⌊(3 / 2 : ℚ) / witnessSim.timestep⌋ + 1 ∧
      s'.sim_time = (n : ℚ) * witnessSim.timestep) :=
  ⟨by decide, by norm_num, rfl, by decide, rfl,
    C1_pacing_catchup id (3 / 2) witnessSim (by decide) (by norm_num) rfl
      (by decide) rfl⟩

/-- C2 counterexample: on a model whose `"default"` keyframe differs from the
initial configuration, one suspended step leaves the free body's first pose
coordinate at the keyframe value `1`, not at the cached initial reference
value `0` — refuting the claim that the pose equals the cached reference. -/
def c2Probe : Except String (ℚ × Option ℚ) :=
  match MujocoSimulator.init cexMeta cexModel id 1 true false true 0 0 with
  | .error e => .error e
  | .ok s0 =>
    match MujocoSimulator.step id s0 with
    | .error e => .error e
    | .ok s1 => .ok (s1.data.qpos 0, s0.initial_pos.map (fun f => f 0))

theorem C2_counterexample : c2Probe = .ok (1, some 0) ∧ (1 : ℚ) ≠ 0 :=
  ⟨rfl, by norm_num⟩

/-- C2 (amended): with the suspension flag set, immediately after every
physics step the distinguished free body's pose equals the model's
`"default"`-keyframe pose (not the reference cached at initialization, which
the code stores but never reads) and its velocity equals zero — for any
behavior of the physics primitive. -/
theorem C2_suspension_keyframe (phys : MjData → MjData)
    (s s' : MujocoSimulator) (i : Nat)
    (hstep : MujocoSimulator.step phys s = .ok s')
    (hsusp : s.suspended = true)
    (hfree : findFreeJoint s.model = some i) :
    (∀ k, k < 7 → s'.data.qpos (i + k) = s.model.keyframe_qpos (i + k)) ∧
    (∀ k, k < 6 → s'.data.qvel (i + k) = 0) := by
  unfold MujocoSimulator.step at hstep
  cases hc : applyDueCommands s.actuator_name_to_id (s.sim_time + s.dt)
      s.current_commands s.data.ctrl with
  | error e => rw [hc] at hstep; cases hstep
  | ok ctrl' =>
    rw [hc] at hstep
    cases hstep
    constructor
    · intro k hk
      show (if s.suspended then suspendFix s.model _ else _).qpos (i + k) = _
      rw [if_pos hsusp]
      unfold suspendFix
      rw [hfree]
      exact if_pos ⟨Nat.le_add_right i k, by omega⟩
    · intro k hk
      show (if s.suspended then suspendFix s.model _ else _).qvel (i + k) = 0
      rw [if_pos hsusp]
      unfold suspendFix
      rw [hfree]
      exact if_pos ⟨Nat.le_add_right i k, by omega⟩

/-- C2 witness: a concrete suspended step; the free joint sits at index 0,
the pose lands on the keyframe and the velocity on zero. -/
theorem C2_suspension_keyframe_witness :
    MujocoSimulator.step id witnessSimSusp = .ok witnessSimSuspStepped ∧
    witnessSimSusp.suspended = true ∧
    findFreeJoint witnessSimSusp.model = some 0 ∧
    ((∀ k, k < 7 → witnessSimSuspStepped.data.qpos (0 + k) =
        witnessSimSusp.model.keyframe_qpos (0 + k)) ∧
      (∀ k, k < 6 → witnessSimSuspStepped.data.qvel (0 + k) = 0)) :=
  ⟨rfl, rfl, rfl, C2_suspension_keyframe id witnessSimSusp witnessSimSuspStepped 0 rfl rfl rfl⟩

/-- C8: a model metadata whose control frequency is missing does NOT make
initialization fail — the garbled block at `simulator.py:53-60` (its only
coherent parse) silently defaults the control frequency to 50.0 and
initialization succeeds, contradicting the claim (and the unreachable
`raise ValueError("Control frequency is not set")` the code itself
contains). -/
theorem C8_missing_control_frequency_defaults :
    (MujocoSimulator.init cexMetaNoCF cexModel id (1/1000) true true false 0 0).map
      (fun s => s.control_frequency) = .ok 50 ∧
    isErr (MujocoSimulator.init cexMetaNoCF cexModel id (1/1000) true true false 0 0) = false :=
  ⟨rfl, rfl⟩

theorem dictInsert_nil {α β : Type} [DecidableEq α] (k : α) (v : β) :
    dictInsert ([] : List (α × β)) k v = [(k, v)] := by
  simp [dictInsert, dictGet]

theorem dictInsert_single_same {α β : Type} [DecidableEq α] (k : α) (v w : β) :
    dictInsert [(k, v)] k w = [(k, w)] := by
  simp [dictInsert, dictGet]

/-- `commandLoop` on a batch containing one known joint id enqueues exactly
one command for its actuator. -/
theorem commandLoop_single_known (jmap : List (Nat × String))
    (amap : List (String × Nat)) (t : ℚ) (rand : Nat → ℚ) (j : Nat) (v : ℚ)
    (name : String) (cur : List (String × ℚ × ℚ))
    (hname : dictGet jmap j = some name)
    (hact : (dictGet amap (name ++ "_ctrl")).isSome = true) :
    commandLoop jmap amap t rand [(j, v)] 0 cur =
      dictInsert cur (name ++ "_ctrl") (v, t + rand 0) := by
  simp only [commandLoop, hname, hact, if_true]

/-- Stepping a simulator whose queue holds a single due command for a known
actuator: the step succeeds, that actuator's control input becomes the
commanded target, and the entry is consumed.  The physics primitive is
assumed not to write the control vector (in MuJoCo, `ctrl` is an input). -/
theorem step_single_due (phys : MjData → MjData) (s2 : MujocoSimulator)
    (act : String) (v t2 : ℚ) (aid : Nat)
    (hcmds : s2.current_commands = [(act, v, t2)])
    (hact : dictGet s2.actuator_name_to_id act = some aid)
    (hdue : t2 ≤ s2.sim_time + s2.dt)
    (hphys : ∀ d, (phys d).ctrl = d.ctrl) :
    ∃ s3, MujocoSimulator.step phys s2 = .ok s3 ∧
      s3.data.ctrl aid = v ∧ s3.current_commands = [] := by
  have happ : applyDueCommands s2.actuator_name_to_id (s2.sim_time + s2.dt)
      s2.current_commands s2.data.ctrl =
      .ok (Function.update s2.data.ctrl aid v) := by
    rw [hcmds]
    simp only [applyDueCommands, hact, hdue, if_true]
  have hstep : MujocoSimulator.step phys s2 = .ok
      { s2 with
        sim_time := s2.sim_time + s2.dt
        current_commands := s2.current_commands.filter
          (fun c => !(decide (c.2.2 ≤ s2.sim_time + s2.dt)))
        data := if s2.suspended then
            suspendFix s2.model
              (phys { s2.data with ctrl := Function.update s2.data.ctrl aid v })
          else phys { s2.data with ctrl := Function.update s2.data.ctrl aid v } } := by
    unfold MujocoSimulator.step
    rw [happ]
  refine ⟨_, hstep, ?_, ?_⟩
  · show (if s2.suspended then
        suspendFix s2.model
          (phys { s2.data with ctrl := Function.update s2.data.ctrl aid v })
        else phys { s2.data with ctrl := Function.update s2.data.ctrl aid v }).ctrl aid = v
    by_cases hsusp : s2.suspended
    · rw [if_pos hsusp, suspendFix_ctrl, hphys]
      exact Function.update_same aid v s2.data.ctrl
    · rw [if_neg hsusp, hphys]
      exact Function.update_same aid v s2.data.ctrl
  · show s2.current_commands.filter
        (fun c => !(decide (c.2.2 ≤ s2.sim_time + s2.dt))) = []
    rw [hcmds]
    simp [List.filter, hdue]

/-- C3: issuing two commands for the same actuator before either is applied
leaves exactly one pending entry — the second overwrites the first — and
after a step that passes the application time the engine's control input for
that actuator equals the second target, with the entry consumed. -/
theorem C3_last_write_wins (s : MujocoSimulator) (j : Nat) (name : String)
    (aid : Nat) (v1 v2 : ℚ) (rand1 rand2 : Nat → ℚ) (phys : MjData → MjData)
    (hempty : s.current_commands = [])
    (hname : dictGet s.joint_id_to_name j = some name)
    (hact : dictGet s.actuator_name_to_id (name ++ "_ctrl") = some aid)
    (hphys : ∀ d, (phys d).ctrl = d.ctrl)
    (hdue : rand2 0 ≤ s.dt) :
    (MujocoSimulator.command_actuators rand2 [(j, v2)]
        (MujocoSimulator.command_actuators rand1 [(j, v1)] s)).current_commands =
      [(name ++ "_ctrl", v2, s.sim_time + rand2 0)] ∧
    ∃ s3, MujocoSimulator.step phys
        (MujocoSimulator.command_actuators rand2 [(j, v2)]
          (MujocoSimulator.command_actuators rand1 [(j, v1)] s)) = .ok s3 ∧
      s3.data.ctrl aid = v2 ∧ s3.current_commands = [] := by
  have hisSome : (dictGet s.actuator_name_to_id (name ++ "_ctrl")).isSome = true := by
    rw [hact]; rfl
  have h1 : (MujocoSimulator.command_actuators rand1 [(j, v1)] s).current_commands =
      [(name ++ "_ctrl", v1, s.sim_time + rand1 0)] := by
    show commandLoop s.joint_id_to_name s.actuator_name_to_id s.sim_time rand1
        [(j, v1)] 0 s.current_commands = _
    rw [commandLoop_single_known _ _ _ _ _ _ _ _ hname hisSome, hempty, dictInsert_nil]
  have h2 : (MujocoSimulator.command_actuators rand2 [(j, v2)]
      (MujocoSimulator.command_actuators rand1 [(j, v1)] s)).current_commands =
      [(name ++ "_ctrl", v2, s.sim_time + rand2 0)] := by
    show commandLoop s.joint_id_to_name s.actuator_name_to_id s.sim_time rand2
        [(j, v2)] 0
        (MujocoSimulator.command_actuators rand1 [(j, v1)] s).current_commands = _
    rw [h1, commandLoop_single_known _ _ _ _ _ _ _ _ hname hisSome,
      dictInsert_single_same]
  have hduet : s.sim_time + rand2 0 ≤ s.sim_time + s.dt := by linarith
  exact ⟨h2, step_single_due phys _ (name ++ "_ctrl") v2 (s.sim_time + rand2 0) aid
    h2 hact hduet hphys⟩

/-- C3 witness: command joint 11 to `1` then to `2` with zero delay; one
pending entry remains and after one step the control input is `2`. -/
theorem C3_last_write_wins_witness :
    witnessSim.current_commands = [] ∧
    dictGet witnessSim.joint_id_to_name 11 = some ("j1") ∧
    dictGet witnessSim.actuator_name_to_id ("j1" ++ "_ctrl") = some 0 ∧
    ((0 : ℚ) ≤ witnessSim.dt) ∧
    ((MujocoSimulator.command_actuators (fun _ => 0) [(11, 2)]
        (MujocoSimulator.command_actuators (fun _ => 0) [(11, 1)] witnessSim)).current_commands =
      [(("j1" ++ "_ctrl"), 2, witnessSim.sim_time + 0)] ∧
    ∃ s3, MujocoSimulator.step id
        (MujocoSimulator.command_actuators (fun _ => 0) [(11, 2)]
          (MujocoSimulator.command_actuators (fun _ => 0) [(11, 1)] witnessSim)) = .ok s3 ∧
      s3.data.ctrl 0 = 2 ∧ s3.current_commands = []) :=
  ⟨rfl, rfl, rfl, by decide,
    C3_last_write_wins witnessSim 11 ("j1") 0 1 2 (fun _ => 0) (fun _ => 0) id rfl rfl rfl
      (fun _ => rfl) (by decide)⟩

/-- C4 counterexample: with rendering enabled, a failing render call during a
loop iteration does NOT let the loop continue: the iteration ends in the
shutdown path, refuting "non-fatal, rendering skipped, loop continues". -/
theorem C4_counterexample :
    witnessSim.render_enabled = true ∧
    (simulationLoopIter id false (.error ("render failed")) 0 witnessSim).isNext = false :=
  ⟨rfl, rfl⟩

/-- C4 (amended): a render failure inside the pacing-loop body is caught by
the loop's blanket exception handler: it is logged, the loop exits, and the
shutdown path runs — a renderer fault is fatal to the serving instance, like
any other loop-body failure. -/
theorem C4_render_failure_fatal (phys : MjData → MjData) (b : Bool) (e : String)
    (elapsed : ℚ) (s s' : MujocoSimulator) (n : Nat)
    (hstep : (if b then runCatchUp phys s.timestep elapsed s 0
        else .ok (s, 0)) = .ok (s', n))
    (hrender : s'.render_enabled = true) :
    simulationLoopIter phys b (.error e) elapsed s = .shutdown e := by
  unfold simulationLoopIter
  rw [hstep]
  dsimp only
  rw [hrender]
  rfl

/-- C4 witness: a concrete iteration with rendering enabled and a failing
renderer ends in shutdown. -/
theorem C4_render_failure_fatal_witness :
    ((if false then runCatchUp id witnessSim.timestep 0 witnessSim 0
        else .ok (witnessSim, 0)) =
      (.ok (witnessSim, 0) : Except String (MujocoSimulator × Nat))) ∧
    witnessSim.render_enabled = true ∧
    simulationLoopIter id false (.error ("boom")) 0 witnessSim = .shutdown ("boom") :=
  ⟨rfl, rfl, C4_render_failure_fatal id false ("boom") 0 witnessSim witnessSim 0 rfl rfl⟩

/-- `dictGet` on a cons cell. -/
theorem dictGet_cons {α β : Type} [DecidableEq α] (b : α) (w : β)
    (l : List (α × β)) (a : α) :
    dictGet ((b, w) :: l) a = if b = a then some w else dictGet l a := by
  by_cases hba : b = a <;> simp [dictGet, List.find?_cons, hba]

/-- A successful `dictGet` exhibits a member of the association list. -/
theorem dictGet_mem {α β : Type} [DecidableEq α] {l : List (α × β)} {k : α}
    {v : β} (h : dictGet l k = some v) : (k, v) ∈ l := by
  unfold dictGet at h
  cases hf : l.find? (fun p => decide (p.1 = k)) with
  | none => rw [hf] at h; cases h
  | some p =>
    rw [hf] at h
    obtain ⟨a, b⟩ := p
    have hp := @List.find?_some (α × β) (fun q => decide (q.1 = k)) (a, b) l hf
    have h1 : a = k := of_decide_eq_true hp
    have h2 : b = v := by cases h; rfl
    have hmem := List.mem_of_find?_eq_some hf
    rw [h1, h2] at hmem
    exact hmem

/-- `dictGet` after appending a fresh key at the end. -/
theorem dictGet_append_single {α β : Type} [DecidableEq α] (k a : α) (v : β) :
    ∀ l : List (α × β), dictGet l k = none →
      dictGet (l ++ [(k, v)]) a = if a = k then some v else dictGet l a := by
  intro l
  induction l with
  | nil =>
    intro _
    by_cases hak : a = k
    · simp [dictGet, List.find?_cons, hak]
    · simp [dictGet, List.find?_cons, hak, Ne.symm hak]
  | cons p rest ih =>
    intro hnone
    obtain ⟨b, w⟩ := p
    rw [dictGet_cons] at hnone
    by_cases hbk : b = k
    · rw [if_pos hbk] at hnone
      cases hnone
    · rw [if_neg hbk] at hnone
      rw [List.cons_append, dictGet_cons, dictGet_cons]
      by_cases hba : b = a
      · rw [if_pos hba, if_pos hba, if_neg (fun h => hbk (hba.trans h))]
      · rw [if_neg hba, if_neg hba, ih hnone]

/-- `dictGet` through the replace-in-place map used when the key is already
present. -/
theorem dictGet_map_replace {α β : Type} [DecidableEq α] (k : α) (v : β) :
    ∀ (l : List (α × β)) (a : α),
      dictGet (l.map (fun p => if p.1 = k then (k, v) else p)) a =
        if a = k then (dictGet l k).map (fun _ => v) else dictGet l a := by
  intro l
  induction l with
  | nil =>
    intro a
    by_cases hak : a = k <;> simp [dictGet, hak]
  | cons p rest ih =>
    intro a
    obtain ⟨b, w⟩ := p
    by_cases hbk : b = k
    · rw [List.map_cons, if_pos hbk]
      simp only [dictGet_cons, ih]
      by_cases hak : a = k
      · simp [hak, hbk]
      · simp [hak, hbk, Ne.symm hak]
    · rw [List.map_cons, if_neg hbk]
      simp only [dictGet_cons, ih]
      by_cases hak : a = k
      · simp [hak, hbk]
      · simp [hak, hbk]

/-- Full characterization of a Python dict assignment: the assigned key now
maps to the new value, every other key is untouched. -/
theorem dictGet_dictInsert {α β : Type} [DecidableEq α] (l : List (α × β))
    (k a : α) (v : β) :
    dictGet (dictInsert l k v) a = if a = k then some v else dictGet l a := by
  unfold dictInsert
  cases hk : dictGet l k with
  | none =>
    simp only [Option.isSome_none, Bool.false_eq_true, if_false]
    exact dictGet_append_single k a v l hk
  | some w =>
    simp only [Option.isSome_some, if_true]
    rw [dictGet_map_replace]
    by_cases hak : a = k
    · rw [if_pos hak, if_pos hak, hk]
      rfl
    · rw [if_neg hak, if_neg hak]

/-- Every joint name in the identity mapping resolves to an actuator — the
invariant `__init__` establishes (the `joint_id_to_actuator_id` comprehension
raises `KeyError` at startup otherwise). -/
def ActuatorsComplete (s : MujocoSimulator) : Prop :=
  ∀ p ∈ s.joint_id_to_name,
    (dictGet s.actuator_name_to_id (p.2 ++ "_ctrl")).isSome = true

instance (s : MujocoSimulator) : Decidable (ActuatorsComplete s) :=
  List.decidableBAll _ s.joint_id_to_name

/-- The command loop never removes a pending entry: any actuator present in
the queue before the batch is still present afterwards. -/
theorem commandLoop_preserves_isSome (jmap : List (Nat × String))
    (amap : List (String × Nat)) (t : ℚ) (rand : Nat → ℚ) :
    ∀ (cmds : List (Nat × ℚ)) (k : Nat) (cur : List (String × ℚ × ℚ))
      (a : String), (dictGet cur a).isSome = true →
      (dictGet (commandLoop jmap amap t rand cmds k cur) a).isSome = true := by
  intro cmds
  induction cmds with
  | nil => exact fun k cur a h => h
  | cons c rest ih =>
    intro k cur a h
    obtain ⟨j, v⟩ := c
    cases hj : dictGet jmap j with
    | none =>
      simp only [commandLoop, hj]
      exact ih _ _ _ h
    | some name =>
      cases hs : (dictGet amap (name ++ "_ctrl")).isSome with
      | false =>
        simp only [commandLoop, hj, hs, Bool.false_eq_true, if_false]
        exact ih _ _ _ h
      | true =>
        simp only [commandLoop, hj, hs, if_true]
        apply ih
        rw [dictGet_dictInsert]
        by_cases hak : a = name ++ "_ctrl"
        · rw [if_pos hak]
          rfl
        · rw [if_neg hak]
          exact h

/-- Every batch entry whose joint id is known ends up with a pending entry
for its actuator after the command loop. -/
theorem commandLoop_known_enqueued (jmap : List (Nat × String))
    (amap : List (String × Nat)) (t : ℚ) (rand : Nat → ℚ)
    (hcomplete : ∀ p ∈ jmap, (dictGet amap (p.2 ++ "_ctrl")).isSome = true) :
    ∀ (cmds : List (Nat × ℚ)) (k : Nat) (cur : List (String × ℚ × ℚ)),
      ∀ c ∈ cmds, ∀ name, dictGet jmap c.1 = some name →
      (dictGet (commandLoop jmap amap t rand cmds k cur)
        (name ++ "_ctrl")).isSome = true := by
  intro cmds
  induction cmds with
  | nil =>
    intro k cur c hc
    simp at hc
  | cons c0 rest ih =>
    intro k cur c hc name hname
    obtain ⟨j0, v0⟩ := c0
    rcases List.mem_cons.mp hc with hceq | hcmem
    · subst hceq
      have hname' : dictGet jmap j0 = some name := hname
      have hs : (dictGet amap (name ++ "_ctrl")).isSome = true :=
        hcomplete (j0, name) (dictGet_mem hname')
      simp only [commandLoop, hname', hs, if_true]
      apply commandLoop_preserves_isSome
      rw [dictGet_dictInsert, if_pos rfl]
      rfl
    · cases hj0 : dictGet jmap j0 with
      | none =>
        simp only [commandLoop, hj0]
        exact ih _ _ c hcmem name hname
      | some name0 =>
        have hs0 : (dictGet amap (name0 ++ "_ctrl")).isSome = true :=
          hcomplete (j0, name0) (dictGet_mem hj0)
        simp only [commandLoop, hj0, hs0, if_true]
        exact ih _ _ c hcmem name hname

/-- Unknown joint ids contribute nothing: the command loop computes the same
result on the batch with the unknown entries filtered out (the delay oracle
stays aligned because a sample is only drawn when a command is enqueued). -/
theorem commandLoop_filter_unknown (jmap : List (Nat × String))
    (amap : List (String × Nat)) (t : ℚ) (rand : Nat → ℚ)
    (hcomplete : ∀ p ∈ jmap, (dictGet amap (p.2 ++ "_ctrl")).isSome = true) :
    ∀ (cmds : List (Nat × ℚ)) (k : Nat) (cur : List (String × ℚ × ℚ)),
      commandLoop jmap amap t rand cmds k cur =
        commandLoop jmap amap t rand
          (cmds.filter (fun c => (dictGet jmap c.1).isSome)) k cur := by
  intro cmds
  induction cmds with
  | nil => exact fun k cur => rfl
  | cons c0 rest ih =>
    intro k cur
    obtain ⟨j0, v0⟩ := c0
    cases hj0 : dictGet jmap j0 with
    | none =>
      have hfilter : ((j0, v0) :: rest).filter
          (fun c => (dictGet jmap c.1).isSome) =
          rest.filter (fun c => (dictGet jmap c.1).isSome) := by
        simp [List.filter_cons, hj0]
      rw [hfilter]
      simp only [commandLoop, hj0]
      exact ih _ _
    | some name0 =>
      have hs0 : (dictGet amap (name0 ++ "_ctrl")).isSome = true :=
        hcomplete (j0, name0) (dictGet_mem hj0)
      have hfilter : ((j0, v0) :: rest).filter
          (fun c => (dictGet jmap c.1).isSome) =
          (j0, v0) :: rest.filter (fun c => (dictGet jmap c.1).isSome) := by
        simp [List.filter_cons, hj0]
      rw [hfilter]
      simp only [commandLoop, hj0, hs0, if_true]
      exact ih _ _

/-- C5: for EVERY batch — any size, order, and mix of unknown and known joint
ids — `command_actuators` raises no error and mutates nothing but the pending
queue; each unknown id is skipped (the result coincides with the run on the
batch with the unknown ids removed); and a pending command is enqueued for
every known id in the batch.  `ActuatorsComplete` is the initialization
invariant that every mapped joint resolves to an actuator (`__init__` raises
otherwise). -/
theorem C5_batch_unknown_tolerated (s : MujocoSimulator) (rand : Nat → ℚ)
    (cmds : List (Nat × ℚ)) (hcomplete : ActuatorsComplete s) :
    (∃ q, MujocoSimulator.command_actuators rand cmds s =
      { s with current_commands := q }) ∧
    MujocoSimulator.command_actuators rand cmds s =
      MujocoSimulator.command_actuators rand
        (cmds.filter (fun c => (dictGet s.joint_id_to_name c.1).isSome)) s ∧
    (∀ c ∈ cmds, ∀ name, dictGet s.joint_id_to_name c.1 = some name →
      (dictGet (MujocoSimulator.command_actuators rand cmds s).current_commands
        (name ++ "_ctrl")).isSome = true) := by
  refine ⟨⟨_, rfl⟩, ?_, ?_⟩
  · unfold MujocoSimulator.command_actuators
    rw [commandLoop_filter_unknown s.joint_id_to_name s.actuator_name_to_id
      s.sim_time rand hcomplete cmds 0 s.current_commands]
  · intro c hc name hname
    show (dictGet (commandLoop s.joint_id_to_name s.actuator_name_to_id
      s.sim_time rand cmds 0 s.current_commands) (name ++ "_ctrl")).isSome = true
    exact commandLoop_known_enqueued s.joint_id_to_name s.actuator_name_to_id
      s.sim_time rand hcomplete cmds 0 s.current_commands c hc name hname

/-- C5 witness: the batch `[(99, 1), (11, 2)]` with joint 99 unknown and
joint 11 known. -/
theorem C5_batch_unknown_tolerated_witness :
    ActuatorsComplete witnessSim ∧
    ((∃ q, MujocoSimulator.command_actuators (fun _ => 0) [(99, 1), (11, 2)]
        witnessSim = { witnessSim with current_commands := q }) ∧
      MujocoSimulator.command_actuators (fun _ => 0) [(99, 1), (11, 2)] witnessSim =
        MujocoSimulator.command_actuators (fun _ => 0)
          (([(99, 1), (11, 2)] : List (Nat × ℚ)).filter
            (fun c => (dictGet witnessSim.joint_id_to_name c.1).isSome)) witnessSim ∧
      (∀ c ∈ ([(99, 1), (11, 2)] : List (Nat × ℚ)), ∀ name,
        dictGet witnessSim.joint_id_to_name c.1 = some name →
        (dictGet (MujocoSimulator.command_actuators (fun _ => 0) [(99, 1), (11, 2)]
            witnessSim).current_commands (name ++ "_ctrl")).isSome = true)) :=
  ⟨by decide,
    C5_batch_unknown_tolerated witnessSim (fun _ => 0) [(99, 1), (11, 2)] (by decide)⟩

/-- C6 counterexample: `configure_actuator` on an unknown joint id FAILS the
request (raises `KeyError`), while `command_actuators` with the same unknown
id tolerantly skips it — refuting "skipped with a warning rather than failing
the request, the same tolerant validation as command_actuators". -/
theorem C6_counterexample :
    isErr (MujocoSimulator.configure_actuator 99 {} witnessSim) = true ∧
    (MujocoSimulator.command_actuators (fun _ => 0) [(99, 1)] witnessSim).current_commands
      = [] :=
  ⟨rfl, rfl⟩

/-- C6 (amended): a `configure_actuator` call on a joint id absent from the
identity mappings raises `KeyError` — a request-level failure, unlike the
tolerant skip of `command_actuators`. -/
theorem C6_unknown_id_raises (s : MujocoSimulator) (j : Nat)
    (cfg : ConfigureActuatorRequest)
    (h : dictGet s.joint_id_to_actuator_id j = none) :
    MujocoSimulator.configure_actuator j cfg s =
      .error ("KeyError: Joint ID not found in config mappings") := by
  unfold MujocoSimulator.configure_actuator
  rw [h]

/-- C6 witness: joint 99 is unmapped and the call errors. -/
theorem C6_unknown_id_raises_witness :
    dictGet witnessSim.joint_id_to_actuator_id 99 = none ∧
    MujocoSimulator.configure_actuator 99 {} witnessSim =
      .error ("KeyError: Joint ID not found in config mappings") :=
  ⟨rfl, C6_unknown_id_raises witnessSim 99 {} rfl⟩

/-- C7: `configure_actuator` on a known joint id changes exactly the
parameters whose fields are present in the request; absent fields retain
their prior values (never default-zero), every other actuator's parameters
are untouched, and the rest of the simulator state is unchanged. -/
theorem C7_configure_frame (s : MujocoSimulator) (j aid : Nat)
    (cfg : ConfigureActuatorRequest)
    (h : dictGet s.joint_id_to_actuator_id j = some aid) :
    ∃ s', MujocoSimulator.configure_actuator j cfg s = .ok s' ∧
      (∀ k, cfg.kp = some k → s'.model.actuator_gainprm0 aid = k) ∧
      (∀ k, cfg.kd = some k → s'.model.actuator_biasprm2 aid = -k) ∧
      (∀ m, cfg.max_torque = some m →
        s'.model.actuator_forcerange_lo aid = -m ∧
        s'.model.actuator_forcerange_hi aid = m) ∧
      (cfg.kp = none → s'.model.actuator_gainprm0 aid = s.model.actuator_gainprm0 aid) ∧
      (cfg.kd = none → s'.model.actuator_biasprm2 aid = s.model.actuator_biasprm2 aid) ∧
      (cfg.max_torque = none →
        s'.model.actuator_forcerange_lo aid = s.model.actuator_forcerange_lo aid ∧
        s'.model.actuator_forcerange_hi aid = s.model.actuator_forcerange_hi aid) ∧
      (∀ b, b ≠ aid →
        s'.model.actuator_gainprm0 b = s.model.actuator_gainprm0 b ∧
        s'.model.actuator_biasprm2 b = s.model.actuator_biasprm2 b ∧
        s'.model.actuator_forcerange_lo b = s.model.actuator_forcerange_lo b ∧
        s'.model.actuator_forcerange_hi b = s.model.actuator_forcerange_hi b) ∧
      s'.sim_time = s.sim_time ∧ s'.current_commands = s.current_commands ∧
      s'.data = s.data := by
  obtain ⟨te, zp, kp, kd, mt⟩ := cfg
  unfold MujocoSimulator.configure_actuator
  rw [h]
  cases kp <;> cases kd <;> cases mt <;>
    exact ⟨_, rfl, by intros; simp_all [Function.update_apply],
      by intros; simp_all [Function.update_apply],
      by intros; simp_all [Function.update_apply],
      by intros; simp_all [Function.update_apply],
      by intros; simp_all [Function.update_apply],
      by intros; simp_all [Function.update_apply],
      by intros; simp_all [Function.update_apply],
      rfl, rfl, rfl⟩

/-- C7 witness: set only `kp` on joint 11; `kd` and the force range keep
their prior values. -/
theorem C7_configure_frame_witness :
    dictGet witnessSim.joint_id_to_actuator_id 11 = some 0 ∧
    (∃ s', MujocoSimulator.configure_actuator 11
        { kp := some 7 } witnessSim = .ok s' ∧
      (∀ k, (({ kp := some 7 } : ConfigureActuatorRequest)).kp = some k →
        s'.model.actuator_gainprm0 0 = k) ∧
      (∀ k, (({ kp := some 7 } : ConfigureActuatorRequest)).kd = some k →
        s'.model.actuator_biasprm2 0 = -k) ∧
      (∀ m, (({ kp := some 7 } : ConfigureActuatorRequest)).max_torque = some m →
        s'.model.actuator_forcerange_lo 0 = -m ∧
        s'.model.actuator_forcerange_hi 0 = m) ∧
      ((({ kp := some 7 } : ConfigureActuatorRequest)).kp = none →
        s'.model.actuator_gainprm0 0 = witnessSim.model.actuator_gainprm0 0) ∧
      ((({ kp := some 7 } : ConfigureActuatorRequest)).kd = none →
        s'.model.actuator_biasprm2 0 = witnessSim.model.actuator_biasprm2 0) ∧
      ((({ kp := some 7 } : ConfigureActuatorRequest)).max_torque = none →
        s'.model.actuator_forcerange_lo 0 = witnessSim.model.actuator_forcerange_lo 0 ∧
        s'.model.actuator_forcerange_hi 0 = witnessSim.model.actuator_forcerange_hi 0) ∧
      (∀ b, b ≠ 0 →
        s'.model.actuator_gainprm0 b = witnessSim.model.actuator_gainprm0 b ∧
        s'.model.actuator_biasprm2 b = witnessSim.model.actuator_biasprm2 b ∧
        s'.model.actuator_forcerange_lo b = witnessSim.model.actuator_forcerange_lo b ∧
        s'.model.actuator_forcerange_hi b = witnessSim.model.actuator_forcerange_hi b) ∧
      s'.sim_time = witnessSim.sim_time ∧
      s'.current_commands = witnessSim.current_commands ∧
      s'.data = witnessSim.data) :=
  ⟨rfl, C7_configure_frame witnessSim 11 0 { kp := some 7 } rfl⟩

/-- Splitting a run of operations before a trailing operation. -/
theorem runOps_append (ops : List Op) : ∀ (s s' : MujocoSimulator) (op : Op),
    runOps s (ops ++ [op]) = .ok s' →
    ∃ s1, runOps s ops = .ok s1 ∧ applyOp s1 op = .ok s' := by
  induction ops with
  | nil =>
    intro s s' op h
    rw [List.nil_append] at h
    refine ⟨s, rfl, ?_⟩
    unfold runOps at h
    cases ha : applyOp s op with
    | error e => rw [ha] at h; cases h
    | ok s1 =>
      rw [ha] at h
      have h2 : (Except.ok s1 : Except String MujocoSimulator) = .ok s' := h
      cases h2
      rfl
  | cons op0 rest ih =>
    intro s s' op h
    rw [List.cons_append] at h
    unfold runOps at h
    cases ha : applyOp s op0 with
    | error e => rw [ha] at h; cases h
    | ok s1 =>
      rw [ha] at h
      obtain ⟨s2, h2, h3⟩ := ih s1 s' op h
      refine ⟨s2, ?_, h3⟩
      unfold runOps
      rw [ha]
      exact h2

/-- C9: after any sequence of operations ending in `reset`, the simulation
clock is exactly zero and the pending-command queue is empty; moreover the
clock is advanced by exactly `dt` per step and is never changed by
`command_actuators` or `configure_actuator` — only `reset` zeroes it. -/
theorem C9_reset_clock (ops : List Op) (s : MujocoSimulator)
    (q : Option (List ℚ)) (s' : MujocoSimulator)
    (h : runOps s (ops ++ [Op.resetOp q]) = .ok s') :
    s'.sim_time = 0 ∧ s'.current_commands = [] ∧
    (∀ (phys : MjData → MjData) (t t' : MujocoSimulator),
      MujocoSimulator.step phys t = .ok t' → t'.sim_time = t.sim_time + t.dt) ∧
    (∀ (rand : Nat → ℚ) (cmds : List (Nat × ℚ)) (t : MujocoSimulator),
      (MujocoSimulator.command_actuators rand cmds t).sim_time = t.sim_time) ∧
    (∀ (jid : Nat) (cfg : ConfigureActuatorRequest) (t t' : MujocoSimulator),
      MujocoSimulator.configure_actuator jid cfg t = .ok t' →
        t'.sim_time = t.sim_time) := by
  obtain ⟨s1, _, hr⟩ := runOps_append ops s s' (Op.resetOp q) h
  unfold applyOp at hr
  cases hr
  refine ⟨rfl, rfl, fun phys t t' ht => step_sim_time phys t t' ht,
    fun rand cmds t => rfl, ?_⟩
  intro jid cfg t t' hc
  unfold MujocoSimulator.configure_actuator at hc
  cases hd : dictGet t.joint_id_to_actuator_id jid with
  | none => rw [hd] at hc; cases hc
  | some aid =>
    rw [hd] at hc
    cases hc
    rfl

/-- C9 witness: a concrete run consisting of a single reset. -/
theorem C9_reset_clock_witness :
    runOps witnessSim [Op.resetOp none] = .ok (MujocoSimulator.reset none witnessSim) ∧
    (MujocoSimulator.reset none witnessSim).sim_time = 0 ∧
    (MujocoSimulator.reset none witnessSim).current_commands = [] :=
  ⟨rfl, (C9_reset_clock [] witnessSim none _ rfl).1,
    (C9_reset_clock [] witnessSim none _ rfl).2.1⟩

/-- C10: a configuration request carrying only `torque_enabled` and
`zero_position` (which `configure_actuator` accepts but never reads) leaves
the simulator — in particular every actuator's gains, bias and force range —
completely unchanged. -/
theorem C10_unused_fields_noop (s : MujocoSimulator) (j aid : Nat)
    (te : Option Bool) (zp : Option ℚ)
    (h : dictGet s.joint_id_to_actuator_id j = some aid) :
    MujocoSimulator.configure_actuator j
      { torque_enabled := te, zero_position := zp, kp := none, kd := none,
        max_torque := none } s = .ok s := by
  unfold MujocoSimulator.configure_actuator
  rw [h]

/-- C10 witness: setting both unused fields on joint 11 is a no-op. -/
theorem C10_unused_fields_noop_witness :
    dictGet witnessSim.joint_id_to_actuator_id 11 = some 0 ∧
    MujocoSimulator.configure_actuator 11
      { torque_enabled := some true, zero_position := some 1, kp := none,
        kd := none, max_torque := none } witnessSim = .ok witnessSim :=
  ⟨rfl, C10_unused_fields_noop witnessSim 11 0 (some true) (some 1) rfl⟩

end KosSim
